import Mathlib

/-!
Verification of the ThreatLens core: the feed-aggregation fetcher
(src/lib/news_fetcher.py) and the AI-call retry policy (src/lib/ai_insight.py).

The Python code is shallowly embedded: every network interaction is an input
value (the bytes/parse results the network produced), every pure computation
is translated function by function, and an operation that can raise is
modelled with Option (none = an exception propagates to the caller).
Python strings are modelled as Lean String (a list of unicode code points,
matching CPython str for the ASCII-dominated data involved); the string
helpers below implement the exact CPython semantics of the operations the
source uses (substring test, str.replace, str.strip, slicing, the two
regular expressions, str.lower restricted to ASCII letters).
-/

namespace ThreatLens

/-- Model of the Python substring test on lists of characters:
`isPrefixList p l` holds when `p` is an initial segment of `l`. -/
def isPrefixList : List Char → List Char → Bool
  | [], _ => true
  | _ :: _, [] => false
  | p :: ps, c :: cs => p == c && isPrefixList ps cs

/-- Model of the CPython operator `p in s` on str: `p` occurs as a contiguous
substring of `l` (the empty pattern occurs everywhere). -/
def occursInList (p : List Char) : List Char → Bool
  | [] => isPrefixList p []
  | c :: cs => isPrefixList p (c :: cs) || occursInList p cs

/-- String-level wrapper of `occursInList`: Python `p in s`. -/
def occursIn (p s : String) : Bool := occursInList p.data s.data

/-- Model of CPython `str.replace` (all non-overlapping occurrences, scanned
left to right); `fuel` is a structural-recursion bound, always called with
`fuel = l.length`, and each step consumes at least one list element and
exactly one unit of fuel, so the fuel never runs out before the list does. -/
def replaceAux (p r : List Char) : Nat → List Char → List Char
  | _, [] => []
  | 0, l => l
  | fuel + 1, c :: cs =>
    if isPrefixList p (c :: cs) && !p.isEmpty then
      r ++ replaceAux p r fuel (cs.drop (p.length - 1))
    else
      c :: replaceAux p r fuel cs

/-- Python `s.replace(p, r)` for a non-empty pattern `p`. -/
def pyReplace (s p r : String) : String := ⟨replaceAux p.data r.data s.data.length s.data⟩

/-- Python `str.lower` restricted to ASCII letters (the error signals and
entity names the source compares against are pure ASCII). -/
def pyLower (s : String) : String := ⟨s.data.map Char.toLower⟩

/-- The character class CPython `str.strip()` removes (ASCII whitespace). -/
def pyIsSpace (c : Char) : Bool :=
  c = ' ' || c = '\t' || c = '\n' || c = '\r' || c = '\x0b' || c = '\x0c'

/-- List body of Python `str.strip()`: drop leading and trailing whitespace. -/
def pyStripList (l : List Char) : List Char :=
  ((l.dropWhile pyIsSpace).reverse.dropWhile pyIsSpace).reverse

/-- Python `s.strip()`. -/
def pyStrip (s : String) : String := ⟨pyStripList s.data⟩

/-- Python slicing `s[:n]`. -/
def pySlice (s : String) (n : Nat) : String := ⟨s.data.take n⟩

/-- Scanning part of one match of the regex `<[^<]+?>` from news_fetcher.py:
after the opening `<` and a first middle character, the lazy `[^<]+?` extends
until the first `>`; a `<` on the way aborts the match. `scanClose l` returns
the remainder after the closing `>` when the scan succeeds. -/
def scanClose : List Char → Option (List Char)
  | [] => none
  | c :: cs => if c = '>' then some cs else if c = '<' then none else scanClose cs

/-- Attempt to match the regex `<[^<]+?>` when an opening `<` was just read:
the argument is the text after the `<`; the first middle character must exist
and not be `<` (the `[^<]+?` needs at least one character). Returns the
remainder after the match. -/
def tagSpan : List Char → Option (List Char)
  | [] => none
  | c :: cs => if c = '<' then none else scanClose cs

/-- Model of `re.sub(_HTML_TAG_PATTERN, '', text)` from news_fetcher.py: scan
left to right, deleting each non-overlapping match of `<[^<]+?>` and copying
every unmatched character. Fuel-structured as in `replaceAux`. -/
def stripTagsAux : Nat → List Char → List Char
  | _, [] => []
  | 0, l => l
  | fuel + 1, c :: cs =>
    if c = '<' then
      match tagSpan cs with
      | some rest => stripTagsAux fuel rest
      | none => c :: stripTagsAux fuel cs
    else c :: stripTagsAux fuel cs

/-- The single regex pass removing `<...>` sequences. -/
def stripTags (s : String) : String := ⟨stripTagsAux s.data.length s.data⟩

/-- news_fetcher.py `_clean_html`: early-return for falsy text or text
without `<`; otherwise strip tags in one regex pass, substitute the two
entities that have replacements (`&nbsp;` and `&amp;` — the compiled
`_HTML_ENTITY_PATTERN` also names `lt`, `gt` and `quot` but is never used,
so no other entity is substituted), then a final `str.strip`. -/
def _clean_html (text : String) : String :=
  if text = "" || !occursIn "<" text then text
  else
    pyStrip (pyReplace (pyReplace (stripTags text) "&nbsp;" " ") "&amp;" "&")

/-! ### CPython datetime model

The sort key of `get_latest_news` / `get_cves_only` is a `datetime.datetime`.
Comparison of two naive datetimes or two aware datetimes compares their
instants; comparing a naive with an aware datetime raises `TypeError`.
A datetime is therefore modelled by its class (naive or aware) and its
instant measured in microseconds from 0001-01-01T00:00:00 (UTC-normalised
for aware values); `datetime.min` is `naive 0`. -/

/-- CPython datetime: naive or aware, with the instant in microseconds from
0001-01-01T00:00:00 (offset already subtracted for aware values). -/
inductive PyDatetime where
  | naive (usec : Int)
  | aware (usec : Int)
  deriving DecidableEq, Repr

/-- The sentinel `datetime.min` = 0001-01-01T00:00:00, naive. -/
def datetime_min : PyDatetime := .naive 0

/-- True for aware datetimes. -/
def pyDtAware : PyDatetime → Bool
  | .naive _ => false
  | .aware _ => true

/-- The instant of a datetime, in microseconds from 0001-01-01T00:00:00. -/
def pyDtVal : PyDatetime → Int
  | .naive v => v
  | .aware v => v

/-- CPython `a < b` on datetimes: defined when both are naive or both aware,
`TypeError` (none) otherwise. -/
def pyLt (a b : PyDatetime) : Option Bool :=
  if pyDtAware a = pyDtAware b then some (decide (pyDtVal a < pyDtVal b)) else none

/-- Proleptic-Gregorian leap year test, as in CPython datetime. -/
def isLeap (y : Nat) : Bool := (y % 4 = 0 && y % 100 ≠ 0) || y % 400 = 0

/-- Days in a month of the proleptic Gregorian calendar (0 outside 1..12;
such months are rejected by validation before this is relied on). -/
def daysInMonth (y mo : Nat) : Nat :=
  match mo with
  | 1 => 31 | 2 => if isLeap y then 29 else 28 | 3 => 31 | 4 => 30
  | 5 => 31 | 6 => 30 | 7 => 31 | 8 => 31
  | 9 => 30 | 10 => 31 | 11 => 30 | 12 => 31
  | _ => 0

/-- Days in year `y` strictly before month `mo`. -/
def daysBeforeMonth (y mo : Nat) : Nat :=
  (match mo with
   | 1 => 0 | 2 => 31 | 3 => 59 | 4 => 90 | 5 => 120 | 6 => 151
   | 7 => 181 | 8 => 212 | 9 => 243 | 10 => 273 | 11 => 304 | 12 => 334
   | _ => 0)
  + (if 2 < mo && isLeap y then 1 else 0)

/-- Day number of a valid proleptic-Gregorian date, with 0001-01-01 as day 0
(the `toordinal` of CPython minus one). -/
def dayOrdinal (y mo d : Nat) : Nat :=
  365 * (y - 1) + ((y - 1) / 4 + (y - 1) / 400 - (y - 1) / 100)
    + daysBeforeMonth y mo + (d - 1)

/-- Microseconds from 0001-01-01T00:00:00 to the given local clock reading. -/
def usecOfParts (y mo d h mi s us : Nat) : Nat :=
  ((dayOrdinal y mo d * 86400 + h * 3600 + mi * 60 + s) * 1000000 + us)

/-- The fields read from an ISO 8601 string by `datetime.fromisoformat`;
`offset` is the UTC offset in microseconds when the string carried one. -/
structure IsoFields where
  y : Nat
  mo : Nat
  d : Nat
  h : Nat := 0
  mi : Nat := 0
  s : Nat := 0
  usec : Nat := 0
  offset : Option Int := none
  deriving DecidableEq, Repr

/-- Build the datetime a parsed ISO string denotes: naive when no offset,
aware (UTC-normalised) when an offset is present. -/
def buildDt (f : IsoFields) : PyDatetime :=
  match f.offset with
  | none => .naive (usecOfParts f.y f.mo f.d f.h f.mi f.s f.usec)
  | some off => .aware ((usecOfParts f.y f.mo f.d f.h f.mi f.s f.usec : Int) - off)

/-- Read one char equal to `c`. -/
def expectChar (c : Char) : List Char → Option (List Char)
  | x :: xs => if x = c then some xs else none
  | [] => none

/-- Read exactly two digits. -/
def d2 : List Char → Option (Nat × List Char)
  | a :: b :: rest =>
    if a.isDigit && b.isDigit then
      some ((a.toNat - 48) * 10 + (b.toNat - 48), rest)
    else none
  | _ => none

/-- Read exactly four digits. -/
def d4 : List Char → Option (Nat × List Char)
  | a :: b :: c :: d :: rest =>
    if a.isDigit && b.isDigit && c.isDigit && d.isDigit then
      some ((((a.toNat - 48) * 10 + (b.toNat - 48)) * 10 + (c.toNat - 48)) * 10
              + (d.toNat - 48), rest)
    else none
  | _ => none

/-- Value of a digit run. -/
def digitsVal (l : List Char) : Nat := l.foldl (fun acc c => acc * 10 + (c.toNat - 48)) 0

/-- Fractional part after the dot: CPython `fromisoformat` accepts exactly 3
or 6 fractional digits; the result is in microseconds. -/
def parseFrac (cs : List Char) : Option (Nat × List Char) :=
  let run := cs.takeWhile Char.isDigit
  let rest := cs.dropWhile Char.isDigit
  if run.length = 3 then some (digitsVal run * 1000, rest)
  else if run.length = 6 then some (digitsVal run, rest)
  else none

/-- CPython `_parse_hh_mm_ss_ff`: `HH:MM[:SS[.fff[fff]]]` with no range
checking (ranges are checked by the datetime constructor afterwards). -/
def parseHMSF (cs : List Char) : Option ((Nat × Nat × Nat × Nat) × List Char) := do
  let (h, cs) ← d2 cs
  let cs ← expectChar ':' cs
  let (mi, cs) ← d2 cs
  match cs with
  | ':' :: cs2 => do
    let (s, cs3) ← d2 cs2
    match cs3 with
    | '.' :: cs4 => do
      let (us, cs5) ← parseFrac cs4
      pure ((h, mi, s, us), cs5)
    | _ => pure ((h, mi, s, 0), cs3)
  | _ => pure ((h, mi, 0, 0), cs)

/-- UTC offset after the sign character, `±HH:MM[:SS[.ffffff]]` with the
CPython length restriction (5, 8 or 15 chars after the sign); the result is
the signed offset in microseconds, rejected unless strictly less than 24
hours in magnitude (the `timezone` constructor check). -/
def parseOffsetTail (sign : Int) (cs : List Char) : Option Int := do
  if cs.length = 5 || cs.length = 8 || cs.length = 15 then
    let ((h, mi, s, us), rest) ← parseHMSF cs
    if rest = [] then
      let total : Nat := (h * 3600 + mi * 60 + s) * 1000000 + us
      if total < 24 * 3600 * 1000000 then pure (sign * total) else none
    else none
  else none

/-- Grammar of `datetime.fromisoformat` (CPython 3.10, the grammar the
source targets given its `.replace('Z', '+00:00')` shim): `YYYY-MM-DD`,
optionally one arbitrary separator character, `HH:MM[:SS[.fff[fff]]]`, and
an optional `±HH:MM[:SS[.ffffff]]` offset; ranges validated as by the date
and datetime constructors. -/
def parseIsoFields (cs : List Char) : Option IsoFields := do
  let (y, cs) ← d4 cs
  let cs ← expectChar '-' cs
  let (mo, cs) ← d2 cs
  let cs ← expectChar '-' cs
  let (d, cs) ← d2 cs
  if 1 ≤ y && 1 ≤ mo && mo ≤ 12 && 1 ≤ d && d ≤ daysInMonth y mo then
    match cs with
    | [] => pure { y := y, mo := mo, d := d }
    | _sep :: rest => do
      let ((h, mi, s, us), rest) ← parseHMSF rest
      if h ≤ 23 && mi ≤ 59 && s ≤ 59 then
        match rest with
        | [] => pure { y := y, mo := mo, d := d, h := h, mi := mi, s := s, usec := us }
        | '+' :: tz => do
          let off ← parseOffsetTail 1 tz
          pure { y := y, mo := mo, d := d, h := h, mi := mi, s := s, usec := us,
                 offset := some off }
        | '-' :: tz => do
          let off ← parseOffsetTail (-1) tz
          pure { y := y, mo := mo, d := d, h := h, mi := mi, s := s, usec := us,
                 offset := some off }
        | _ => none
      else none
  else none

/-- `datetime.fromisoformat`, as an Option (none = `ValueError`). -/
def fromisoformat (s : String) : Option PyDatetime :=
  (parseIsoFields s.data).map buildDt

/-- Two-digit zero-padded decimal rendering. -/
def pad2 (n : Nat) : String := if n < 10 then "0" ++ Nat.repr n else Nat.repr n

/-- Four-digit zero-padded decimal rendering. -/
def pad4 (n : Nat) : String :=
  if n < 10 then "000" ++ Nat.repr n
  else if n < 100 then "00" ++ Nat.repr n
  else if n < 1000 then "0" ++ Nat.repr n
  else Nat.repr n

/-- `datetime(y, mo, d, h, mi, s).isoformat()` for a valid zero-microsecond
datetime: `YYYY-MM-DDTHH:MM:SS`. -/
def isoformatOf (y mo d h mi s : Nat) : String :=
  pad4 y ++ "-" ++ pad2 mo ++ "-" ++ pad2 d ++ "T"
    ++ pad2 h ++ ":" ++ pad2 mi ++ ":" ++ pad2 s

/-- Range checks of the `datetime` constructor on the six
`published_parsed` components (a `ValueError` outside them). -/
def datetimeValid (y mo d h mi s : Int) : Bool :=
  1 ≤ y && y ≤ 9999 && 1 ≤ mo && mo ≤ 12 && 1 ≤ d
    && d ≤ (daysInMonth y.toNat mo.toNat : Int)
    && 0 ≤ h && h ≤ 23 && 0 ≤ mi && mi ≤ 59 && 0 ≤ s && s ≤ 59

/-! ### Feed normalisation (news_fetcher.py) -/

/-- The item dict built by news_fetcher.py: title, link, summary, source,
date (an ISO string or None), type (News or CVE), and the optional CVE
fields. `cvss_score` is carried but never computed with, so the numeric
JSON value is modelled as a rational. -/
structure NewsItem where
  title : String
  link : String
  summary : String
  source : String
  date : Option String
  type : String
  cve_id : Option String := none
  cvss_score : Option Rat := none
  deriving DecidableEq, Repr

/-- A feedparser entry as consumed by `_parse_feed_entry`: each field is
`none` when the underlying key is missing, and `published_parsed` holds the
first six `struct_time` components. -/
structure FeedEntry where
  title : Option String := none
  link : Option String := none
  summary : Option String := none
  description : Option String := none
  published_parsed : Option (Int × Int × Int × Int × Int × Int) := none
  deriving DecidableEq, Repr

/-- Python `a or dflt` for an optional string: the first operand wins only
when present and truthy (non-empty). -/
def truthyOr (o : Option String) (dflt : String) : String :=
  match o with
  | some s => if s = "" then dflt else s
  | none => dflt

/-- The raw body text chosen by `_parse_feed_entry`:
`entry.get('summary') or entry.get('description') or 'No description available.'`. -/
def _entry_raw_summary (e : FeedEntry) : String :=
  truthyOr e.summary (truthyOr e.description "No description available.")

/-- Attempt to match `CVE-\d{4}-\d{4,}` at the current position: the literal
prefix, exactly four digits, a dash, then a greedy run of at least four
digits. Returns the matched text. -/
def cveMatchAt : List Char → Option (List Char)
  | 'C' :: 'V' :: 'E' :: '-' :: a :: b :: c :: d :: '-' :: rest =>
    if a.isDigit && b.isDigit && c.isDigit && d.isDigit then
      let run := rest.takeWhile Char.isDigit
      if 4 ≤ run.length then
        some ('C' :: 'V' :: 'E' :: '-' :: a :: b :: c :: d :: '-' :: run)
      else none
    else none
  | _ => none

/-- `re.search(r'CVE-\d{4}-\d{4,}', s)`: the leftmost match. -/
def findCveList : List Char → Option String
  | [] => none
  | c :: cs =>
    match cveMatchAt (c :: cs) with
    | some m => some ⟨m⟩
    | none => findCveList cs

/-- Leftmost `CVE-\d{4}-\d{4,}` match in a string. -/
def findCve (s : String) : Option String := findCveList s.data

/-- news_fetcher.py `_parse_feed_entry`: normalise one feed entry. The
enclosing try/except returns None on an exception; in this typed model no
operation of the body can raise, so the result is always `some`. The inner
try around the `datetime` constructor maps a `ValueError` (out-of-range
`published_parsed` components) to an absent date. -/
def _parse_feed_entry (entry : FeedEntry) (source_name : String) (is_cve : Bool) :
    Option NewsItem :=
  let title := entry.title.getD "Untitled"
  let link := entry.link.getD ""
  let summary := _clean_html (_entry_raw_summary entry)
  let date_str : Option String :=
    match entry.published_parsed with
    | none => none
    | some (y, mo, d, h, mi, s) =>
      if datetimeValid y mo d h mi s then
        some (isoformatOf y.toNat mo.toNat d.toNat h.toNat mi.toNat s.toNat)
      else none
  some { title := title
         link := link
         summary := if 500 < summary.length then pySlice summary 500 else summary
         source := source_name
         date := date_str
         type := if is_cve then "CVE" else "News"
         cve_id := if is_cve then findCve (title ++ " " ++ link) else none }

/-- news_fetcher.py `_fetch_rss_feed`: the network fetch and feedparser
parse are the input (`none` = `feedparser.parse` raised, caught by the
enclosing try, yielding no items); at most `max_items` entries are
normalised, dropping entries the normaliser rejects. -/
def _fetch_rss_feed (result : Option (List FeedEntry)) (source_name : String)
    (is_cve : Bool) (max_items : Nat) : List NewsItem :=
  match result with
  | none => []
  | some entries =>
    (entries.take max_items).filterMap (fun e => _parse_feed_entry e source_name is_cve)

/-! ### NVD enricher (news_fetcher.py `_fetch_nvd_cve_recent`) -/

/-- One entry of a `descriptions` array in an NVD record. -/
structure NvdDesc where
  lang : Option String := none
  value : Option String := none
  deriving DecidableEq, Repr

/-- One metric entry: only `cvssData.baseScore` is read. -/
structure NvdMetric where
  baseScore : Option Rat := none
  deriving DecidableEq, Repr

/-- The `metrics` object: the three keys the source probes, each absent or a
list of metric entries. -/
structure NvdMetrics where
  cvssMetricV31 : Option (List NvdMetric) := none
  cvssMetricV30 : Option (List NvdMetric) := none
  cvssMetricV2 : Option (List NvdMetric) := none
  deriving DecidableEq, Repr

/-- The `cve` object of one NVD vulnerability record. -/
structure NvdCve where
  id : Option String := none
  descriptions : List NvdDesc := []
  published : Option String := none
  metrics : NvdMetrics := {}
  deriving DecidableEq, Repr

/-- One element of the `vulnerabilities` array (`cve` key may be absent). -/
structure NvdVuln where
  cve : Option NvdCve := none
  deriving DecidableEq, Repr

/-- The parsed JSON body: whether the `vulnerabilities` key is present, and
its array. -/
structure NvdBody where
  vulnerabilities : Option (List NvdVuln) := none
  deriving DecidableEq, Repr

/-- Description selection of `_fetch_nvd_cve_recent`: the first
English-language description when one carries a value; if the result is
still the placeholder, the first description of any language. -/
def selectDescription (ds : List NvdDesc) : String :=
  let d0 := "No description available."
  match ds with
  | [] => d0
  | first :: _ =>
    let d1 :=
      match ds.find? (fun d => d.lang == some "en") with
      | some d => d.value.getD d0
      | none => d0
    if d1 = d0 then first.value.getD d1 else d1

/-- CVSS selection: probe `cvssMetricV31`, `cvssMetricV30`, `cvssMetricV2`
in order; on the first key that is present with a non-empty list, take
`[0].cvssData.baseScore` (possibly absent) and stop. -/
def selectCvss (m : NvdMetrics) : Option Rat :=
  match m.cvssMetricV31 with
  | some (x :: _) => x.baseScore
  | _ =>
    match m.cvssMetricV30 with
    | some (x :: _) => x.baseScore
    | _ =>
      match m.cvssMetricV2 with
      | some (x :: _) => x.baseScore
      | _ => none

/-- The `cve` object used when the `cve` key is absent (`vuln.get('cve', {})`). -/
def emptyNvdCve : NvdCve := {}

/-- The item dict `_fetch_nvd_cve_recent` appends for one vulnerability. -/
def _nvd_item (vuln : NvdVuln) : NewsItem :=
  let cve_data := vuln.cve.getD emptyNvdCve
  let cve_id := cve_data.id.getD "Unknown"
  let description := selectDescription cve_data.descriptions
  { title := cve_id ++ ": " ++ pySlice description 100
    link := "https://nvd.nist.gov/vuln/detail/" ++ cve_id
    summary := pySlice description 500
    source := "NIST NVD"
    date := some (cve_data.published.getD "")
    type := "CVE"
    cve_id := some cve_id
    cvss_score := selectCvss cve_data.metrics }

/-- news_fetcher.py `_fetch_nvd_cve_recent`: the HTTP exchange is the input
(`none` = a requests exception or a JSON decode failure, both caught,
yielding no items); on a 200 response with a `vulnerabilities` key, at most
`limit` records are converted. -/
def _fetch_nvd_cve_recent (response : Option (Nat × NvdBody)) (limit : Nat) :
    List NewsItem :=
  match response with
  | none => []
  | some (status, body) =>
    if status = 200 then
      match body.vulnerabilities with
      | some vs => (vs.take limit).map _nvd_item
      | none => []
    else []

/-! ### Aggregation (news_fetcher.py `get_latest_news` / `get_cves_only`) -/

/-- The `get_sort_key` closure: parse the date string (after replacing `Z`
with `+00:00`); a missing, empty or unparseable date yields `datetime.min`. -/
def get_sort_key (item : NewsItem) : PyDatetime :=
  match item.date with
  | none => datetime_min
  | some ds =>
    if ds = "" then datetime_min
    else
      match fromisoformat (pyReplace ds "Z" "+00:00") with
      | some dt => dt
      | none => datetime_min

/-- One step of the stable descending sort `list.sort(key=..., reverse=True)`:
insert `x` (an element earlier in collection order) into the already
descending-sorted `l` of later elements, before any element with an equal
key. A key comparison mixing a naive and an aware datetime raises
`TypeError` (none), exactly as in CPython. -/
def insertByDateDesc (x : NewsItem) : List NewsItem → Option (List NewsItem)
  | [] => some [x]
  | y :: ys =>
    (pyLt (get_sort_key x) (get_sort_key y)).bind fun ltxy =>
      if ltxy then (insertByDateDesc x ys).map (fun r => y :: r)
      else some (x :: y :: ys)

/-- CPython `list.sort(key=get_sort_key, reverse=True)`: a stable descending
sort; `none` models the `TypeError` CPython raises as soon as a comparison
mixes a naive and an aware key, which happens exactly when the list holds
keys of both kinds. -/
def sortByDateDesc : List NewsItem → Option (List NewsItem)
  | [] => some []
  | x :: xs => (sortByDateDesc xs).bind (insertByDateDesc x)

/-- The 20 configured general news feeds. -/
def NEWS_FEEDS : List String :=
  [ "https://feeds.feedburner.com/TheHackersNews"
  , "https://www.bleepingcomputer.com/feed/"
  , "https://krebsonsecurity.com/feed/"
  , "https://threatpost.com/feed/"
  , "https://www.darkreading.com/rss.xml"
  , "https://www.securityweek.com/rss"
  , "https://www.infosecurity-magazine.com/rss/news/"
  , "https://www.csoonline.com/index.rss"
  , "https://www.zdnet.com/topic/security/rss.xml"
  , "https://www.wired.com/feed/tag/security/latest/rss"
  , "https://feeds.feedburner.com/SecurityFocus"
  , "https://www.schneier.com/feed/"
  , "https://www.theregister.com/security/headlines.atom"
  , "https://www.cyberscoop.com/feed/"
  , "https://www.cybersecurity-insiders.com/feed/"
  , "https://www.securitymagazine.com/rss/topic/219-information-security"
  , "https://www.helpnetsecurity.com/feed/"
  , "https://www.securityaffairs.com/feed"
  , "https://www.hackread.com/feed/"
  , "https://www.securitynewspaper.com/feed/" ]

/-- The 2 configured vulnerability feeds. -/
def CVE_FEEDS : List String :=
  [ "https://nvd.nist.gov/feeds/xml/cve/misc/nvd-rss-analyzed.xml"
  , "https://www.securityfocus.com/vulnerabilities/rss" ]

/-- Python `s.split(sep)` for a one-character separator (empty parts kept). -/
def splitOnChar (sep : Char) : List Char → List (List Char)
  | [] => [[]]
  | c :: cs =>
    let r := splitOnChar sep cs
    if c = sep then [] :: r
    else
      match r with
      | h :: t => (c :: h) :: t
      | [] => [[c]]

/-- Python `s.split(sep)[-1]` (split never returns an empty list). -/
def pySplitLast (s : String) (sep : Char) : String :=
  ⟨(splitOnChar sep s.data).getLastD []⟩

/-- Source name of a general news feed:
`feed_url.split('/')[-1].replace('.xml', '').replace('.rss', '').replace('.atom', '')`. -/
def sourceNameOf (url : String) : String :=
  pyReplace (pyReplace (pyReplace (pySplitLast url '/') ".xml" "") ".rss" "") ".atom" ""

/-- Source name of a vulnerability feed:
`feed_url.split('/')[-1] if '/' in feed_url else 'CVE Feed'`. -/
def cveSourceNameOf (url : String) : String :=
  if occursIn "/" url then pySplitLast url '/' else "CVE Feed"

/-- The environment of one aggregation call: everything the network hands
the program. `newsResults` lists, in the completion order produced by
`as_completed` over the thread pool (an order the environment chooses), the
source name and fetch outcome of each news-feed task — a task whose
`future.result(timeout=5)` raised contributes `none` in place of an entry
list, which the except clause turns into no items, identically to a fetch
that returned nothing. `cveResults` pairs positionally with `CVE_FEEDS`
(that fan-out is sequential), and `nvdResponse` is the status and parsed
body of the NVD call (`none` = request or JSON failure). -/
structure FetchEnv where
  newsResults : List (String × Option (List FeedEntry)) := []
  cveResults : List (Option (List FeedEntry)) := []
  nvdResponse : Option (Nat × NvdBody) := none
  deriving Repr

/-- The `all_items` list of `get_latest_news` just before sorting: news
items in completion order, then (when CVEs are included) the two
vulnerability feeds capped at 2 entries each, then up to 3 NVD records. -/
def collect_latest (env : FetchEnv) (include_cves : Bool) : List NewsItem :=
  (env.newsResults.map (fun pr => _fetch_rss_feed pr.2 pr.1 false 2)).join
    ++ (if include_cves then
          ((CVE_FEEDS.zip env.cveResults).map
              (fun pr => _fetch_rss_feed pr.2 (cveSourceNameOf pr.1) true 2)).join
            ++ _fetch_nvd_cve_recent env.nvdResponse 3
        else [])

/-- news_fetcher.py `get_latest_news`: collect, sort descending by date,
truncate to `limit`; `none` models the `TypeError` escaping from the sort. -/
def get_latest_news (env : FetchEnv) (limit : Nat) (include_cves : Bool) :
    Option (List NewsItem) :=
  (sortByDateDesc (collect_latest env include_cves)).map (fun r => r.take limit)

/-- The `cve_items` list of `get_cves_only` just before sorting: the two
vulnerability feeds capped at 3 entries each, then up to `limit` NVD
records. -/
def collect_cves (env : FetchEnv) (limit : Nat) : List NewsItem :=
  ((CVE_FEEDS.zip env.cveResults).map
      (fun pr => _fetch_rss_feed pr.2 (cveSourceNameOf pr.1) true 3)).join
    ++ _fetch_nvd_cve_recent env.nvdResponse limit

/-- news_fetcher.py `get_cves_only`: vulnerability sources only, sort,
truncate. -/
def get_cves_only (env : FetchEnv) (limit : Nat) : Option (List NewsItem) :=
  (sortByDateDesc (collect_cves env limit)).map (fun r => r.take limit)

/-! ### AI idea generation (ai_insight.py `analyze_news_for_ideas`)

The body of the per-attempt try block (client construction, prompt build,
`generate_content`, the JSON decode with its code-fence fallback) either
returns a decoded JSON value or raises; it is modelled as a transport
function from the attempt index to that outcome, with the decoded value of
an abstract type. The prompt is a fixed pure function of `news_items`, so
it does not vary across attempts and is absorbed into the transport. -/

/-- Outcome of one attempt body: a decoded value, or an exception whose
`str(e)` is the given message. -/
inductive Outcome (α : Type) where
  | ok (v : α)
  | raise (e : String)

/-- The value `analyze_news_for_ideas` returns: a decoded JSON value or a
user-facing string. -/
inductive AiRet (α : Type) where
  | ideas (v : α)
  | msg (s : String)
  deriving DecidableEq

/-- One run of `analyze_news_for_ideas` together with its observable
effects: how many attempts invoked the attempt body, and the argument of
each `time.sleep` in order. -/
structure AiRun (α : Type) where
  ret : AiRet α
  attempts : Nat
  sleeps : List Nat
  deriving DecidableEq

/-- The configuration-error string returned when no key is set. -/
def configMsg : String := "Error: GEMINI_API_KEY not configured in environment."

/-- The terminal overload string. -/
def overloadMsg : String :=
  "⚠️ The AI service is currently overloaded. Please try again in a few moments."

/-- The authentication-failure string. -/
def authMsg : String := "❌ API authentication failed. Please check your GEMINI_API_KEY."

/-- The rate-limit string. -/
def rateMsg : String := "⚠️ Rate limit exceeded. Please wait a moment before trying again."

/-- The generic terminal string, with the error text truncated to 200. -/
def genericMsg (e : String) : String := "❌ AI service error: " ++ pySlice e 200

/-- The string after the loop, unreachable for any `max_retries ≥ 0`. -/
def exhaustedMsg : String :=
  "❌ Failed to generate ideas after multiple attempts. Please try again later."

/-- Overload classification:
`"503" in e or "UNAVAILABLE" in e or "overloaded" in e.lower()`. -/
def isOverload (e : String) : Bool :=
  occursIn "503" e || occursIn "UNAVAILABLE" e || occursIn "overloaded" (pyLower e)

/-- Authentication classification:
`"401" in e or "403" in e or "API key" in e.lower()` (the third test is
against the lowercased text exactly as written in the source, where it can
never match because the pattern itself has upper-case letters). -/
def isAuth (e : String) : Bool :=
  occursIn "401" e || occursIn "403" e || occursIn "API key" (pyLower e)

/-- Rate-limit classification: `"429" in e or "rate limit" in e.lower()`. -/
def isRate (e : String) : Bool :=
  occursIn "429" e || occursIn "rate limit" (pyLower e)

/-- The four branches of the except clause. -/
inductive ErrClass where
  | overload
  | auth
  | rate
  | generic
  deriving DecidableEq, Repr

/-- The if/elif chain of the except clause, in source order: overload first,
then authentication, then rate limit, else generic. -/
def classify (e : String) : ErrClass :=
  if isOverload e then .overload
  else if isAuth e then .auth
  else if isRate e then .rate
  else .generic

/-- The retry loop `for attempt in range(max_retries + 1)`. `fuel` counts
the loop iterations still available; `analyze_news_for_ideas` starts it at
`max_retries + 1` with `attempt = 0`, and the loop body recurses only while
`attempt < max_retries`, so the fuel-exhausted case (the line after the
loop in the source, returning `exhaustedMsg`) stays unreachable, exactly as
in the source for a non-negative `max_retries`. -/
def runLoop {α : Type} (transport : Nat → Outcome α) (max_retries : Nat) :
    Nat → Nat → List Nat → AiRun α
  | 0, attempt, sleeps => ⟨.msg exhaustedMsg, attempt, sleeps⟩
  | fuel + 1, attempt, sleeps =>
    match transport attempt with
    | .ok v => ⟨.ideas v, attempt + 1, sleeps⟩
    | .raise e =>
      match classify e with
      | .overload =>
        if attempt < max_retries then
          runLoop transport max_retries fuel (attempt + 1) (sleeps ++ [(attempt + 1) * 2])
        else ⟨.msg overloadMsg, attempt + 1, sleeps⟩
      | .auth => ⟨.msg authMsg, attempt + 1, sleeps⟩
      | .rate => ⟨.msg rateMsg, attempt + 1, sleeps⟩
      | .generic =>
        if attempt < max_retries then
          runLoop transport max_retries fuel (attempt + 1) (sleeps ++ [1])
        else ⟨.msg (genericMsg e), attempt + 1, sleeps⟩

/-- ai_insight.py `analyze_news_for_ideas`: return the configuration error
at once when no `GEMINI_API_KEY` is configured, otherwise run the bounded
retry loop. `news_items` only feeds the prompt, which the transport
absorbs. -/
def analyze_news_for_ideas {α : Type} (has_api_key : Bool)
    (news_items : List NewsItem) (transport : Nat → Outcome α)
    (max_retries : Nat) : AiRun α :=
  if has_api_key then runLoop transport max_retries (max_retries + 1) 0 []
  else ⟨.msg configMsg, 0, []⟩

/-! ### Lemmas on the string layer -/

theorem isPrefixList_mem {p l : List Char} (h : isPrefixList p l = true) :
    ∀ a ∈ p, a ∈ l := by
  induction p generalizing l with
  | nil => intro a ha; cases ha
  | cons x xs ih =>
    cases l with
    | nil => simp [isPrefixList] at h
    | cons c cs =>
      simp only [isPrefixList, Bool.and_eq_true, beq_iff_eq] at h
      intro a ha
      rcases List.mem_cons.1 ha with rfl | ha
      · exact h.1 ▸ List.mem_cons_self _ _
      · exact List.mem_cons_of_mem _ (ih h.2 a ha)

theorem occursInList_mem {p l : List Char} (h : occursInList p l = true) :
    ∀ a ∈ p, a ∈ l := by
  induction l with
  | nil =>
    cases p with
    | nil => intro a ha; cases ha
    | cons x xs =>
      rw [occursInList, isPrefixList] at h
      cases h
  | cons c cs ih =>
    rw [occursInList, Bool.or_eq_true] at h
    intro a ha
    rcases h with h | h
    · exact isPrefixList_mem h a ha
    · exact List.mem_cons_of_mem _ (ih h a ha)

theorem occursInList_single {c : Char} {l : List Char} :
    occursInList [c] l = true ↔ c ∈ l := by
  induction l with
  | nil =>
    rw [occursInList, isPrefixList]
    simp
  | cons x xs ih =>
    rw [occursInList, isPrefixList, isPrefixList]
    simp only [Bool.or_eq_true, Bool.and_eq_true, beq_iff_eq, ih,
      List.mem_cons]
    tauto

theorem scanClose_sublist {l r : List Char} (h : scanClose l = some r) :
    r.Sublist l := by
  induction l with
  | nil => cases h
  | cons c cs ih =>
    rw [scanClose] at h
    by_cases hc : c = '>'
    · rw [if_pos hc] at h
      injection h with h
      subst h
      exact List.Sublist.cons c (List.Sublist.refl _)
    · by_cases hc2 : c = '<'
      · rw [if_neg hc, if_pos hc2] at h
        cases h
      · rw [if_neg hc, if_neg hc2] at h
        exact List.Sublist.cons c (ih h)

theorem tagSpan_sublist {l r : List Char} (h : tagSpan l = some r) :
    r.Sublist l := by
  cases l with
  | nil => cases h
  | cons c cs =>
    rw [tagSpan] at h
    by_cases hc : c = '<'
    · rw [if_pos hc] at h
      cases h
    · rw [if_neg hc] at h
      exact List.Sublist.cons c (scanClose_sublist h)

theorem stripTagsAux_sublist : ∀ (fuel : Nat) (l : List Char),
    (stripTagsAux fuel l).Sublist l := by
  intro fuel
  induction fuel with
  | zero =>
    intro l
    cases l with
    | nil => exact List.Sublist.refl _
    | cons c cs => exact List.Sublist.refl _
  | succ n ih =>
    intro l
    cases l with
    | nil => exact List.Sublist.refl _
    | cons c cs =>
      rw [stripTagsAux]
      by_cases hc : c = '<'
      · rw [if_pos hc]
        cases htag : tagSpan cs with
        | some rest => exact ((ih rest).trans (tagSpan_sublist htag)).cons c
        | none => exact (ih cs).cons₂ c
      · rw [if_neg hc]
        exact (ih cs).cons₂ c

theorem replaceAux_not_mem {p r l : List Char} (fuel : Nat) {c : Char}
    (hc : c ∈ p) (h : c ∉ l) : replaceAux p r fuel l = l := by
  induction fuel generalizing l with
  | zero => cases l <;> rfl
  | succ n ih =>
    cases l with
    | nil => rfl
    | cons x xs =>
      have hpre : ¬(isPrefixList p (x :: xs) && !p.isEmpty) = true := by
        intro hand
        rw [Bool.and_eq_true] at hand
        exact h (isPrefixList_mem hand.1 c hc)
      rw [replaceAux, if_neg hpre,
        ih (fun hm => h (List.mem_cons_of_mem _ hm))]

theorem pyStripList_subset {a : Char} {l : List Char} (h : a ∈ pyStripList l) :
    a ∈ l := by
  unfold pyStripList at h
  rw [List.mem_reverse] at h
  have h1 := (List.dropWhile_sublist pyIsSpace).subset h
  rw [List.mem_reverse] at h1
  exact (List.dropWhile_sublist pyIsSpace).subset h1

theorem clean_html_no_amp {s : String} (h : '&' ∉ s.data) :
    '&' ∉ (_clean_html s).data := by
  unfold _clean_html
  by_cases h0 : s = "" || !occursIn "<" s
  · simpa [h0] using h
  · rw [if_neg h0]
    have hstrip : '&' ∉ (stripTags s).data :=
      fun hm => h ((stripTagsAux_sublist _ _).subset hm)
    have h2 : (pyReplace (stripTags s) "&nbsp;" " ").data = (stripTags s).data :=
      replaceAux_not_mem _ (by decide : '&' ∈ ("&nbsp;" : String).data) hstrip
    have h3 : (pyReplace (pyReplace (stripTags s) "&nbsp;" " ") "&amp;" "&").data
        = (stripTags s).data := by
      show replaceAux _ _
        (pyReplace (stripTags s) "&nbsp;" " ").data.length
        (pyReplace (stripTags s) "&nbsp;" " ").data = _
      rw [h2]
      exact replaceAux_not_mem _ (by decide : '&' ∈ ("&amp;" : String).data) hstrip
    intro hmem
    have h1 := pyStripList_subset hmem
    rw [h3] at h1
    exact hstrip h1

theorem occursIn_eq_false {p s : String} {c : Char} (hc : c ∈ p.data)
    (hs : c ∉ s.data) : occursIn p s = false := by
  cases ho : occursIn p s
  · rfl
  · exact absurd (occursInList_mem ho c hc) hs

/-! ### Lemmas on the stable descending sort -/

/-- Descending order of sort-key instants. -/
def keyGe (a b : NewsItem) : Prop :=
  pyDtVal (get_sort_key b) ≤ pyDtVal (get_sort_key a)

/-- The items of `l` whose sort key is exactly `k`, in order. -/
def keyFilter (k : PyDatetime) (l : List NewsItem) : List NewsItem :=
  l.filter (fun z => decide (get_sort_key z = k))

theorem pyLt_some {a b : PyDatetime} {lt : Bool} (h : pyLt a b = some lt) :
    pyDtAware a = pyDtAware b ∧ (lt = true ↔ pyDtVal a < pyDtVal b) := by
  unfold pyLt at h
  by_cases hc : pyDtAware a = pyDtAware b
  · rw [if_pos hc] at h
    injection h with h
    exact ⟨hc, by rw [← h]; exact decide_eq_true_iff⟩
  · rw [if_neg hc] at h
    cases h

theorem insert_nil_elim {x : NewsItem} {r : List NewsItem}
    (h : insertByDateDesc x [] = some r) : r = [x] := by
  rw [insertByDateDesc] at h
  injection h with h
  exact h.symm

theorem insert_cons_elim {x y : NewsItem} {ys r : List NewsItem}
    (h : insertByDateDesc x (y :: ys) = some r) :
    ∃ ltxy, pyLt (get_sort_key x) (get_sort_key y) = some ltxy ∧
      ((ltxy = true ∧ ∃ r', insertByDateDesc x ys = some r' ∧ r = y :: r') ∨
        (ltxy = false ∧ r = x :: y :: ys)) := by
  rw [insertByDateDesc] at h
  rcases Option.bind_eq_some.1 h with ⟨ltxy, hlt, hf⟩
  refine ⟨ltxy, hlt, ?_⟩
  cases ltxy with
  | true =>
    rw [if_pos rfl] at hf
    rcases Option.map_eq_some'.1 hf with ⟨r', hins, hr⟩
    exact Or.inl ⟨rfl, r', hins, hr.symm⟩
  | false =>
    rw [if_neg (by simp)] at hf
    injection hf with hf
    exact Or.inr ⟨rfl, hf.symm⟩

theorem sort_cons_elim {x : NewsItem} {xs r : List NewsItem}
    (h : sortByDateDesc (x :: xs) = some r) :
    ∃ r', sortByDateDesc xs = some r' ∧ insertByDateDesc x r' = some r := by
  rw [sortByDateDesc] at h
  exact Option.bind_eq_some.1 h

theorem insert_perm {x : NewsItem} {l r : List NewsItem}
    (h : insertByDateDesc x l = some r) : r.Perm (x :: l) := by
  induction l generalizing r with
  | nil =>
    rw [insert_nil_elim h]
  | cons y ys ih =>
    rcases insert_cons_elim h with ⟨ltxy, hlt, ⟨hb, r', hins, rfl⟩ | ⟨hb, rfl⟩⟩
    · exact ((ih hins).cons y).trans (List.Perm.swap x y ys)
    · exact List.Perm.refl _

theorem sort_perm {l r : List NewsItem} (h : sortByDateDesc l = some r) :
    r.Perm l := by
  induction l generalizing r with
  | nil =>
    rw [sortByDateDesc] at h
    injection h with h
    rw [← h]
  | cons x xs ih =>
    rcases sort_cons_elim h with ⟨r', hs, hins⟩
    exact (insert_perm hins).trans ((ih hs).cons x)

theorem insert_pairwise {x : NewsItem} {l r : List NewsItem}
    (hp : l.Pairwise keyGe) (h : insertByDateDesc x l = some r) :
    r.Pairwise keyGe := by
  induction l generalizing r with
  | nil =>
    rw [insert_nil_elim h]
    exact List.pairwise_singleton _ _
  | cons y ys ih =>
    rw [List.pairwise_cons] at hp
    rcases insert_cons_elim h with ⟨ltxy, hlt, ⟨hb, r', hins, rfl⟩ | ⟨hb, rfl⟩⟩
    · rw [List.pairwise_cons]
      refine ⟨?_, ih hp.2 hins⟩
      intro w hw
      rcases List.mem_cons.1 ((insert_perm hins).mem_iff.1 hw) with rfl | hw
      · exact le_of_lt ((pyLt_some hlt).2.1 hb)
      · exact hp.1 w hw
    · have hxy : pyDtVal (get_sort_key y) ≤ pyDtVal (get_sort_key x) := by
        have h2 := (pyLt_some hlt).2
        exact Int.not_lt.1 (fun hlt2 => by rw [h2.2 hlt2] at hb; cases hb)
      rw [List.pairwise_cons]
      refine ⟨?_, List.pairwise_cons.2 hp⟩
      intro w hw
      rcases List.mem_cons.1 hw with rfl | hw
      · exact hxy
      · exact le_trans (hp.1 w hw) hxy

theorem sort_pairwise {l r : List NewsItem} (h : sortByDateDesc l = some r) :
    r.Pairwise keyGe := by
  induction l generalizing r with
  | nil =>
    rw [sortByDateDesc] at h
    injection h with h
    rw [← h]
    exact List.Pairwise.nil
  | cons x xs ih =>
    rcases sort_cons_elim h with ⟨r', hs, hins⟩
    exact insert_pairwise (ih hs) hins

theorem keyFilter_nil {k : PyDatetime} : keyFilter k [] = [] := rfl

theorem keyFilter_cons_of_eq {y : NewsItem} {l : List NewsItem} {k : PyDatetime}
    (hy : get_sort_key y = k) : keyFilter k (y :: l) = y :: keyFilter k l := by
  simp [keyFilter, List.filter_cons, hy]

theorem keyFilter_cons_of_ne {y : NewsItem} {l : List NewsItem} {k : PyDatetime}
    (hy : ¬ get_sort_key y = k) : keyFilter k (y :: l) = keyFilter k l := by
  simp [keyFilter, List.filter_cons, hy]

theorem insert_keyFilter {x : NewsItem} {l r : List NewsItem} {k : PyDatetime}
    (h : insertByDateDesc x l = some r) :
    keyFilter k r =
      if get_sort_key x = k then x :: keyFilter k l else keyFilter k l := by
  induction l generalizing r with
  | nil =>
    rw [insert_nil_elim h]
    by_cases hx : get_sort_key x = k
    · rw [if_pos hx, keyFilter_cons_of_eq hx, keyFilter_nil]
    · rw [if_neg hx, keyFilter_cons_of_ne hx, keyFilter_nil]
  | cons y ys ih =>
    rcases insert_cons_elim h with ⟨ltxy, hlt, ⟨hb, r', hins, rfl⟩ | ⟨hb, rfl⟩⟩
    · by_cases hx : get_sort_key x = k
      · have hy : ¬ get_sort_key y = k := by
          intro hy
          have hv := (pyLt_some hlt).2.1 hb
          rw [hx, ← hy] at hv
          exact lt_irrefl _ hv
        rw [if_pos hx, keyFilter_cons_of_ne hy, keyFilter_cons_of_ne hy,
          ih hins, if_pos hx]
      · rw [if_neg hx]
        by_cases hy : get_sort_key y = k
        · rw [keyFilter_cons_of_eq hy, keyFilter_cons_of_eq hy, ih hins, if_neg hx]
        · rw [keyFilter_cons_of_ne hy, keyFilter_cons_of_ne hy, ih hins, if_neg hx]
    · by_cases hx : get_sort_key x = k
      · rw [if_pos hx, keyFilter_cons_of_eq hx]
      · rw [if_neg hx, keyFilter_cons_of_ne hx]

theorem sort_keyFilter {l r : List NewsItem} {k : PyDatetime}
    (h : sortByDateDesc l = some r) : keyFilter k r = keyFilter k l := by
  induction l generalizing r with
  | nil =>
    rw [sortByDateDesc] at h
    injection h with h
    rw [← h]
  | cons x xs ih =>
    rcases sort_cons_elim h with ⟨r', hs, hins⟩
    rw [insert_keyFilter hins, ih hs]
    by_cases hx : get_sort_key x = k
    · rw [if_pos hx, keyFilter_cons_of_eq hx]
    · rw [if_neg hx, keyFilter_cons_of_ne hx]

theorem insert_head_class {x y : NewsItem} {ys r : List NewsItem}
    (h : insertByDateDesc x (y :: ys) = some r) :
    pyDtAware (get_sort_key x) = pyDtAware (get_sort_key y) := by
  rcases insert_cons_elim h with ⟨ltxy, hlt, _⟩
  exact (pyLt_some hlt).1

theorem sort_uniform {l r : List NewsItem} (h : sortByDateDesc l = some r) :
    ∀ a ∈ r, ∀ b ∈ r, pyDtAware (get_sort_key a) = pyDtAware (get_sort_key b) := by
  induction l generalizing r with
  | nil =>
    rw [sortByDateDesc] at h
    injection h with h
    rw [← h]
    intro a ha
    cases ha
  | cons x xs ih =>
    rcases sort_cons_elim h with ⟨r', hs, hins⟩
    cases r' with
    | nil =>
      rw [insert_nil_elim hins]
      intro a ha b hb
      rw [List.mem_singleton.1 ha, List.mem_singleton.1 hb]
    | cons y ys =>
      have hclass : ∀ a ∈ r, pyDtAware (get_sort_key a) = pyDtAware (get_sort_key y) := by
        intro a ha
        rcases List.mem_cons.1 ((insert_perm hins).mem_iff.1 ha) with rfl | ha
        · exact insert_head_class hins
        · exact ih hs a ha y (List.mem_cons_self _ _)
      intro a ha b hb
      rw [hclass a ha, hclass b hb]

theorem get_sort_key_naive_nonneg {item : NewsItem} {v : Int}
    (h : get_sort_key item = .naive v) : 0 ≤ v := by
  have hmin : datetime_min = PyDatetime.naive v → 0 ≤ v := by
    intro hv
    rw [datetime_min] at hv
    injection hv with hv
    exact hv ▸ le_refl 0
  cases hd : item.date with
  | none =>
    simp only [get_sort_key, hd] at h
    exact hmin h
  | some ds =>
    simp only [get_sort_key, hd] at h
    by_cases hds : ds = ""
    · rw [if_pos hds] at h
      exact hmin h
    · rw [if_neg hds] at h
      cases hp : fromisoformat (pyReplace ds "Z" "+00:00") with
      | none =>
        simp only [hp] at h
        exact hmin h
      | some dt =>
        simp only [hp] at h
        rw [fromisoformat] at hp
        rcases Option.map_eq_some'.1 hp with ⟨f, _, hbuild⟩
        rw [buildDt] at hbuild
        cases hoff : f.offset with
        | none =>
          simp only [hoff] at hbuild
          have h2 := hbuild.trans h
          injection h2 with h2
          exact h2 ▸ Int.natCast_nonneg _
        | some off =>
          simp only [hoff] at hbuild
          rw [← hbuild] at h
          cases h

theorem pyDtVal_datetime_min : pyDtVal datetime_min = 0 := rfl

theorem sorted_sentinel_split {r : List NewsItem}
    (hp : r.Pairwise keyGe)
    (hu : ∀ a ∈ r, ∀ b ∈ r, pyDtAware (get_sort_key a) = pyDtAware (get_sort_key b)) :
    ∃ u v, r = u ++ v ∧ (∀ z ∈ u, ¬ get_sort_key z = datetime_min) ∧
      (∀ z ∈ v, get_sort_key z = datetime_min) := by
  induction r with
  | nil =>
    exact ⟨[], [], rfl, fun z hz => (List.not_mem_nil z hz).elim,
      fun z hz => (List.not_mem_nil z hz).elim⟩
  | cons z rest ih =>
    rw [List.pairwise_cons] at hp
    by_cases hz : get_sort_key z = datetime_min
    · refine ⟨[], z :: rest, rfl, fun w hw => (List.not_mem_nil w hw).elim, ?_⟩
      intro w hw
      rcases List.mem_cons.1 hw with rfl | hw
      · exact hz
      · have hcl := hu w (List.mem_cons_of_mem _ hw) z (List.mem_cons_self _ _)
        rw [hz] at hcl
        have hle : pyDtVal (get_sort_key w) ≤ pyDtVal (get_sort_key z) := hp.1 w hw
        rw [hz, pyDtVal_datetime_min] at hle
        cases hkw : get_sort_key w with
        | naive vw =>
          have hnn := get_sort_key_naive_nonneg hkw
          rw [hkw] at hle
          have hv0 : vw = 0 := le_antisymm hle hnn
          rw [hv0]
          rfl
        | aware vw =>
          rw [hkw] at hcl
          cases hcl
    · rcases ih hp.2
        (fun a ha b hb =>
          hu a (List.mem_cons_of_mem _ ha) b (List.mem_cons_of_mem _ hb))
        with ⟨u, v, hr, hun, hv⟩
      refine ⟨z :: u, v, by rw [hr, List.cons_append], ?_, hv⟩
      intro w hw
      rcases List.mem_cons.1 hw with rfl | hw
      · exact hz
      · exact hun w hw

theorem keyFilter_append {k : PyDatetime} {a b : List NewsItem} :
    keyFilter k (a ++ b) = keyFilter k a ++ keyFilter k b := by
  unfold keyFilter
  exact List.filter_append _ _

theorem sort_take_main {l r : List NewsItem} {n : Nat}
    (h : sortByDateDesc l = some r) :
    (r.take n).Pairwise keyGe ∧
      (∀ k, ∃ t, keyFilter k l = keyFilter k (r.take n) ++ t) ∧
      (∃ u v, r.take n = u ++ v ∧ (∀ z ∈ u, ¬ get_sort_key z = datetime_min) ∧
        (∀ z ∈ v, get_sort_key z = datetime_min)) := by
  refine ⟨(sort_pairwise h).sublist (List.take_sublist n r), ?_, ?_⟩
  · intro k
    refine ⟨keyFilter k (r.drop n), ?_⟩
    rw [← sort_keyFilter h, ← keyFilter_append, List.take_append_drop]
  · rcases sorted_sentinel_split (sort_pairwise h) (sort_uniform h) with
      ⟨u, v, hr, hun, hv⟩
    refine ⟨u.take n, v.take (n - u.length), ?_, ?_, ?_⟩
    · rw [hr, List.take_append_eq_append_take]
    · intro w hw
      exact hun w ((List.take_sublist _ _).subset hw)
    · intro w hw
      exact hv w ((List.take_sublist _ _).subset hw)

/-! ### Lemmas on the retry loop -/

theorem runLoop_attempts_le {α : Type} (t : Nat → Outcome α) (mr : Nat) :
    ∀ (fuel attempt : Nat) (sleeps : List Nat),
      (runLoop t mr fuel attempt sleeps).attempts ≤ attempt + fuel := by
  intro fuel
  induction fuel with
  | zero => intro a s; exact Nat.le_refl _
  | succ n ih =>
    intro a s
    rw [runLoop]
    split
    · show a + 1 ≤ a + (n + 1); omega
    · split
      · split
        · exact (ih (a + 1) _).trans (by omega)
        · show a + 1 ≤ a + (n + 1); omega
      · show a + 1 ≤ a + (n + 1); omega
      · show a + 1 ≤ a + (n + 1); omega
      · split
        · exact (ih (a + 1) _).trans (by omega)
        · show a + 1 ≤ a + (n + 1); omega

theorem runLoop_attempts_ge {α : Type} (t : Nat → Outcome α) (mr : Nat) :
    ∀ (fuel attempt : Nat) (sleeps : List Nat),
      attempt ≤ (runLoop t mr fuel attempt sleeps).attempts := by
  intro fuel
  induction fuel with
  | zero => intro a s; exact Nat.le_refl _
  | succ n ih =>
    intro a s
    rw [runLoop]
    split
    · show a ≤ a + 1; omega
    · split
      · split
        · exact le_trans (by omega) (ih (a + 1) _)
        · show a ≤ a + 1; omega
      · show a ≤ a + 1; omega
      · show a ≤ a + 1; omega
      · split
        · exact le_trans (by omega) (ih (a + 1) _)
        · show a ≤ a + 1; omega

theorem runLoop_attempts_succ_ge {α : Type} (t : Nat → Outcome α) (mr : Nat)
    (fuel attempt : Nat) (sleeps : List Nat) (hf : 1 ≤ fuel) :
    attempt + 1 ≤ (runLoop t mr fuel attempt sleeps).attempts := by
  cases fuel with
  | zero => cases hf
  | succ n =>
    rw [runLoop]
    split
    · exact Nat.le_refl _
    · split
      · split
        · exact le_trans (Nat.le_refl _) (runLoop_attempts_ge t mr n (attempt + 1) _)
        · exact Nat.le_refl _
      · exact Nat.le_refl _
      · exact Nat.le_refl _
      · split
        · exact le_trans (Nat.le_refl _) (runLoop_attempts_ge t mr n (attempt + 1) _)
        · exact Nat.le_refl _

theorem runLoop_sleeps_extend {α : Type} (t : Nat → Outcome α) (mr : Nat) :
    ∀ (fuel attempt : Nat) (sleeps : List Nat),
      ∃ s2, (runLoop t mr fuel attempt sleeps).sleeps = sleeps ++ s2 := by
  intro fuel
  induction fuel with
  | zero => intro a s; exact ⟨[], (List.append_nil s).symm⟩
  | succ n ih =>
    intro a s
    rw [runLoop]
    split
    · exact ⟨[], (List.append_nil s).symm⟩
    · split
      · split
        · rcases ih (a + 1) (s ++ [(a + 1) * 2]) with ⟨s2, hs2⟩
          exact ⟨(a + 1) * 2 :: s2, by rw [hs2, List.append_assoc]; rfl⟩
        · exact ⟨[], (List.append_nil s).symm⟩
      · exact ⟨[], (List.append_nil s).symm⟩
      · exact ⟨[], (List.append_nil s).symm⟩
      · split
        · rcases ih (a + 1) (s ++ [1]) with ⟨s2, hs2⟩
          exact ⟨1 :: s2, by rw [hs2, List.append_assoc]; rfl⟩
        · exact ⟨[], (List.append_nil s).symm⟩

theorem runLoop_ok {α : Type} (t : Nat → Outcome α) (mr fuel a : Nat)
    (s : List Nat) {v : α} (ht : t a = .ok v) :
    runLoop t mr (fuel + 1) a s = ⟨.ideas v, a + 1, s⟩ := by
  simp [runLoop, ht]

theorem runLoop_overload_retry {α : Type} (t : Nat → Outcome α) (mr fuel a : Nat)
    (s : List Nat) {e : String} (ht : t a = .raise e) (hov : isOverload e = true)
    (ha : a < mr) :
    runLoop t mr (fuel + 1) a s = runLoop t mr fuel (a + 1) (s ++ [(a + 1) * 2]) := by
  simp [runLoop, ht, classify, hov, ha]

theorem runLoop_overload_last {α : Type} (t : Nat → Outcome α) (mr fuel a : Nat)
    (s : List Nat) {e : String} (ht : t a = .raise e) (hov : isOverload e = true)
    (ha : ¬ a < mr) :
    runLoop t mr (fuel + 1) a s = ⟨.msg overloadMsg, a + 1, s⟩ := by
  simp [runLoop, ht, classify, hov, ha]

theorem runLoop_auth_stop {α : Type} (t : Nat → Outcome α) (mr fuel a : Nat)
    (s : List Nat) {e : String} (ht : t a = .raise e) (hov : isOverload e = false)
    (hau : isAuth e = true) :
    runLoop t mr (fuel + 1) a s = ⟨.msg authMsg, a + 1, s⟩ := by
  simp [runLoop, ht, classify, hov, hau]

theorem runLoop_rate_stop {α : Type} (t : Nat → Outcome α) (mr fuel a : Nat)
    (s : List Nat) {e : String} (ht : t a = .raise e) (hov : isOverload e = false)
    (hau : isAuth e = false) (hra : isRate e = true) :
    runLoop t mr (fuel + 1) a s = ⟨.msg rateMsg, a + 1, s⟩ := by
  simp [runLoop, ht, classify, hov, hau, hra]

theorem ite_trunc_eq_slice (s : String) (n : Nat) :
    (if n < s.length then pySlice s n else s) = pySlice s n := by
  by_cases h : n < s.length
  · rw [if_pos h]
  · rw [if_neg h]
    have hle : s.data.length ≤ n := Nat.not_lt.1 h
    show s = ⟨s.data.take n⟩
    conv_lhs => rw [show s = ⟨s.data⟩ from rfl]
    rw [List.take_of_length_le hle]

theorem pySlice_length_le (s : String) (n : Nat) : (pySlice s n).length ≤ n := by
  show (s.data.take n).length ≤ n
  rw [List.length_take]
  exact min_le_left _ _

/-! ### Concrete environments used by the claim-level theorems -/

/-- A news feed entry with no parseable publication date. -/
def mixedDateEntry : FeedEntry :=
  { title := some "A story", link := some "http://a", summary := some "text" }

/-- One completed news fetch with an undated item, together with an NVD
record whose published date carries the `Z` suffix (so its sort key is an
aware datetime). -/
def mixedDateEnv : FetchEnv :=
  { newsResults := [("TheHackersNews", some [mixedDateEntry])]
    cveResults := []
    nvdResponse := some (200,
      { vulnerabilities := some
          [{ cve := some
              { id := some "CVE-2024-0001"
                descriptions := [{ lang := some "en", value := some "descr" }]
                published := some "2024-01-01T00:00:00Z" } }] }) }

/-- A vulnerability feed entry with no date. -/
def tieEntryUndated : FeedEntry := { title := some "undated", link := some "http://u" }

/-- A vulnerability feed entry dated 0001-01-01T00:00:00, the exact value of
the sentinel `datetime.min`. -/
def tieEntryYearOne : FeedEntry :=
  { title := some "dated year one", link := some "http://d"
    published_parsed := some (1, 1, 1, 0, 0, 0) }

/-- Environment in which an undated item is collected before an item dated
exactly at the sentinel. -/
def tieEnv : FetchEnv := { cveResults := [some [tieEntryUndated, tieEntryYearOne]] }

/-- Environment with two dated vulnerability entries, for instantiating the
ordering theorem. -/
def c4WitnessEnv : FetchEnv :=
  { cveResults := [some
      [ { title := some "old", published_parsed := some (2024, 1, 1, 0, 0, 0) }
      , { title := some "new", published_parsed := some (2024, 2, 1, 0, 0, 0) } ]] }

/-- The output of `get_cves_only` on `c4WitnessEnv`. -/
def c4Out : List NewsItem := (get_cves_only c4WitnessEnv 5).getD []

/-- A feed entry whose summary carries markup. -/
def c5Entry : FeedEntry := { summary := some "<b>hi</b>" }

/-- The item `_parse_feed_entry` produces from `c5Entry`. -/
def c5Item : NewsItem :=
  { title := "Untitled", link := "", summary := "hi", source := "src"
    date := none, type := "News" }

/-- Three entries on the first vulnerability feed. -/
def c6Entries : List FeedEntry :=
  [{ title := some "v1" }, { title := some "v2" }, { title := some "v3" }]

/-- Five NVD vulnerability records. -/
def c6Vulns : List NvdVuln := [{}, {}, {}, {}, {}]

/-- Environment where the first vulnerability feed parses three entries and
the NVD response carries five records. -/
def c6Env : FetchEnv :=
  { cveResults := [some c6Entries]
    nvdResponse := some (200, { vulnerabilities := some c6Vulns }) }

/-- The output of `get_cves_only` on `c6Env` with limit 20. -/
def c6Out : List NewsItem := (get_cves_only c6Env 20).getD []

/-! ### Claim theorems -/

/-- C1 (code bug): the claim says no core operation raises, including the
final sort even on a mix of absent, naive, and timezone-offset dates — but
when the collected items mix an aware date (an NVD record published with a
`Z` offset, made aware by the `Z` to `+00:00` rewrite in the sort key) with
an undated item keyed to the naive `datetime.min`, the CPython
`list.sort` comparison raises `TypeError`, which escapes `get_latest_news`.
This theorem evaluates the embedded pipeline at that failing input: the
sort, and hence `get_latest_news`, aborts (`none`) instead of producing a
list. -/
theorem get_latest_news_mixed_tz_raises :
    get_latest_news mixedDateEnv 5 true = none := by decide

/-- C2 counterexample: cleaning the summary text `<b>&lt;` strips the tag
but leaves the literal entity `&lt;` in the output, so the claim that the
four entities `&nbsp; &amp; &lt; &gt;` are decoded and none of them remains
is false — the source substitutes only `&nbsp;` and `&amp;`. -/
theorem clean_html_lt_entity_remains :
    _clean_html "<b>&lt;" = "&lt;" ∧
      occursIn "&lt;" (_clean_html "<b>&lt;") = true :=
  ⟨by decide, by decide⟩

/-- C2 (amended): the HTML cleaning removes tag sequences in a single regex
pass and substitutes only the two entities `&nbsp;` and `&amp;` (the entity
pattern also names `&lt;`, `&gt;`, `&quot;`, but none of these is ever
substituted), so entity text such as `&lt;`/`&gt;` can survive cleaning;
an input with no `<` character is returned entirely unchanged, and an input
with no `&` character cleans to text free of all four entities. -/
theorem clean_html_entity_decoding_amended (s : String) :
    ('&' ∉ s.data →
      occursIn "&nbsp;" (_clean_html s) = false ∧
        occursIn "&amp;" (_clean_html s) = false ∧
        occursIn "&lt;" (_clean_html s) = false ∧
        occursIn "&gt;" (_clean_html s) = false) ∧
    ('<' ∉ s.data → _clean_html s = s) := by
  constructor
  · intro h
    have hout := clean_html_no_amp h
    exact ⟨occursIn_eq_false (by decide) hout, occursIn_eq_false (by decide) hout,
      occursIn_eq_false (by decide) hout, occursIn_eq_false (by decide) hout⟩
  · intro h
    have hocc : occursIn "<" s = false := by
      cases ho : occursIn "<" s
      · rfl
      · have ho2 : occursInList ['<'] s.data = true := ho
        exact absurd (occursInList_single.1 ho2) h
    rw [_clean_html, if_pos (by rw [hocc]; simp)]

/-- Witness for C2: a tagged ampersand-free input cleans entity-free, and an
input with no `<` is returned unchanged. -/
theorem clean_html_entity_decoding_amended_witness :
    (occursIn "&nbsp;" (_clean_html "<b>hi</b>") = false ∧
      occursIn "&amp;" (_clean_html "<b>hi</b>") = false ∧
      occursIn "&lt;" (_clean_html "<b>hi</b>") = false ∧
      occursIn "&gt;" (_clean_html "<b>hi</b>") = false) ∧
    _clean_html "no tags here" = "no tags here" :=
  ⟨(clean_html_entity_decoding_amended "<b>hi</b>").1 (by decide),
    (clean_html_entity_decoding_amended "no tags here").2 (by decide)⟩

/-- The transport raised an overload-classified error on this attempt. -/
def overloadRaise {α : Type} (o : Outcome α) : Prop :=
  ∃ e, o = .raise e ∧ isOverload e = true

/-- C3 (confirmed): with `max_retries = 2`, `analyze_news_for_ideas` makes
at most 3 attempts for any transport; when every attempt raises an
overload-classified error, it sleeps `(attempt+1)*2` seconds between
attempts (2 then 4) and returns the user-facing overload string after the
third attempt. -/
theorem analyze_retry_bound_overload {α : Type} (items : List NewsItem)
    (t : Nat → Outcome α) :
    (analyze_news_for_ideas true items t 2).attempts ≤ 3 ∧
    ((∀ i, i ≤ 2 → overloadRaise (t i)) →
      analyze_news_for_ideas true items t 2 = ⟨.msg overloadMsg, 3, [2, 4]⟩) := by
  constructor
  · exact runLoop_attempts_le t 2 3 0 []
  · intro h
    obtain ⟨e0, ht0, hov0⟩ := h 0 (by omega)
    obtain ⟨e1, ht1, hov1⟩ := h 1 (by omega)
    obtain ⟨e2, ht2, hov2⟩ := h 2 (by omega)
    show runLoop t 2 3 0 [] = _
    have s1 : runLoop t 2 3 0 [] = runLoop t 2 2 1 [2] := by
      simpa using runLoop_overload_retry t 2 2 0 [] ht0 hov0 (by omega)
    have s2 : runLoop t 2 2 1 [2] = runLoop t 2 1 2 [2, 4] := by
      simpa using runLoop_overload_retry t 2 1 1 [2] ht1 hov1 (by omega)
    have s3 : runLoop t 2 1 2 [2, 4] = ⟨.msg overloadMsg, 3, [2, 4]⟩ := by
      simpa using runLoop_overload_last t 2 0 2 [2, 4] ht2 hov2 (by omega)
    exact s1.trans (s2.trans s3)

/-- Witness for C3: a transport that always raises a 503. -/
theorem analyze_retry_bound_overload_witness :
    (analyze_news_for_ideas (α := Unit) true [] (fun _ => .raise "503") 2).attempts ≤ 3 ∧
    analyze_news_for_ideas (α := Unit) true [] (fun _ => .raise "503") 2 =
      ⟨.msg overloadMsg, 3, [2, 4]⟩ :=
  ⟨(analyze_retry_bound_overload [] (fun _ => .raise "503")).1,
    (analyze_retry_bound_overload [] (fun _ => .raise "503")).2
      (fun i _ => ⟨"503", rfl, by decide⟩)⟩

/-- C4 counterexample: an undated item collected before an item whose date
parses exactly to the sentinel `datetime.min` (0001-01-01T00:00:00) keeps
its place in front of that dated item — absent-dated items are NOT always
ordered after all dated items, because a dated item can tie with the
sentinel. -/
theorem undated_before_dated_tie :
    ((get_cves_only tieEnv 5).getD []).map (fun i => i.date) =
      [none, some "0001-01-01T00:00:00"] ∧
    (get_cves_only tieEnv 5).isSome = true :=
  ⟨by decide, by decide⟩

/-- C4 (amended): any list `get_latest_news` or `get_cves_only` returns is
sorted descending by the sort-key instant; items with an absent or
unparseable date are keyed to the sentinel minimum timestamp, and every
item whose key is strictly above the sentinel precedes every sentinel-keyed
item (a dated item parsing exactly to the sentinel ties with undated items
instead of preceding them); ties preserve the original collection order
(for each key value, the returned items with that key are an initial
segment, in order, of the collected items with that key). -/
theorem output_sorted_stable_amended :
    (∀ (env : FetchEnv) (limit : Nat) (ic : Bool) (out : List NewsItem),
      get_latest_news env limit ic = some out →
        out.Pairwise keyGe ∧
        (∀ k, ∃ t2, keyFilter k (collect_latest env ic) = keyFilter k out ++ t2) ∧
        (∃ u v, out = u ++ v ∧ (∀ z ∈ u, ¬ get_sort_key z = datetime_min) ∧
          (∀ z ∈ v, get_sort_key z = datetime_min))) ∧
    (∀ (env : FetchEnv) (limit : Nat) (out : List NewsItem),
      get_cves_only env limit = some out →
        out.Pairwise keyGe ∧
        (∀ k, ∃ t2, keyFilter k (collect_cves env limit) = keyFilter k out ++ t2) ∧
        (∃ u v, out = u ++ v ∧ (∀ z ∈ u, ¬ get_sort_key z = datetime_min) ∧
          (∀ z ∈ v, get_sort_key z = datetime_min))) := by
  constructor
  · intro env limit ic out h
    rw [get_latest_news] at h
    rcases Option.map_eq_some'.1 h with ⟨r, hs, rfl⟩
    exact sort_take_main hs
  · intro env limit out h
    rw [get_cves_only] at h
    rcases Option.map_eq_some'.1 h with ⟨r, hs, rfl⟩
    exact sort_take_main hs

/-- Witness for C4: the two dated vulnerability items of `c4WitnessEnv` come
back sorted, stably, and with no sentinel item out of place. -/
theorem output_sorted_stable_amended_witness :
    c4Out.Pairwise keyGe ∧
    (∃ t2, keyFilter datetime_min (collect_cves c4WitnessEnv 5) =
      keyFilter datetime_min c4Out ++ t2) ∧
    (∃ u v, c4Out = u ++ v ∧ (∀ z ∈ u, ¬ get_sort_key z = datetime_min) ∧
      (∀ z ∈ v, get_sort_key z = datetime_min)) :=
  have h := output_sorted_stable_amended.2 c4WitnessEnv 5 c4Out (by decide)
  ⟨h.1, h.2.1 datetime_min, h.2.2⟩

/-- C5 (confirmed): every item the feed normaliser produces has
`summary = (cleaned body)[:500]` — a pure hard cut with no suffix marker —
hence of length at most 500; every item the NVD enricher produces has
`summary = description[:500]`, again of length at most 500. -/
theorem summary_length_bound :
    (∀ (entry : FeedEntry) (src : String) (is_cve : Bool) (item : NewsItem),
      _parse_feed_entry entry src is_cve = some item →
        item.summary = pySlice (_clean_html (_entry_raw_summary entry)) 500 ∧
        item.summary.length ≤ 500) ∧
    (∀ vuln : NvdVuln, (_nvd_item vuln).summary.length ≤ 500) := by
  constructor
  · intro entry src is_cve item h
    rw [_parse_feed_entry] at h
    injection h with h
    have h1 : item.summary = pySlice (_clean_html (_entry_raw_summary entry)) 500 := by
      rw [← h]
      exact ite_trunc_eq_slice _ 500
    refine ⟨h1, ?_⟩
    rw [h1]
    exact pySlice_length_le _ 500
  · intro vuln
    show (pySlice (selectDescription ((vuln.cve.getD emptyNvdCve).descriptions)) 500).length ≤ 500
    exact pySlice_length_le _ 500

/-- Witness for C5: a concrete feed entry and the empty NVD record. -/
theorem summary_length_bound_witness :
    (c5Item.summary = pySlice (_clean_html (_entry_raw_summary c5Entry)) 500 ∧
      c5Item.summary.length ≤ 500) ∧
    (_nvd_item {}).summary.length ≤ 500 :=
  ⟨summary_length_bound.1 c5Entry "src" false c5Item (by decide),
    summary_length_bound.2 {}⟩

/-- C6 counterexample: `get_cves_only` takes up to 3 items from each
vulnerability feed (not 2) and asks the enricher for up to `limit` records
(not 3): with three entries on the first feed and five NVD records, the
result at limit 20 holds three items of that feed and five NVD items. -/
theorem cves_only_fetch_counts :
    c6Out.countP (fun i => i.source == "NIST NVD") = 5 ∧
    c6Out.countP (fun i => i.source == "nvd-rss-analyzed.xml") = 3 ∧
    (get_cves_only c6Env 20).isSome = true :=
  ⟨by decide, by decide, by decide⟩

/-- C6 (amended): `get_cves_only` performs only the vulnerability steps of
the aggregation — every returned item originates from a dedicated
vulnerability feed restricted to its first 3 entries or from the NVD
response restricted to its first `limit` records (no general news fan-out
occurs), each feed contributes at most 3 items, the enricher contributes at
most `limit` items, and the result is sorted and truncated to `limit`. -/
theorem cves_only_sources_amended (env : FetchEnv) (limit : Nat)
    (out : List NewsItem) (h : get_cves_only env limit = some out) :
    (∀ x ∈ out, x ∈ collect_cves env limit) ∧
    out.length ≤ limit ∧
    (∀ (result : Option (List FeedEntry)) (name : String),
      (_fetch_rss_feed result name true 3).length ≤ 3) ∧
    (_fetch_nvd_cve_recent env.nvdResponse limit).length ≤ limit := by
  rw [get_cves_only] at h
  rcases Option.map_eq_some'.1 h with ⟨r, hs, rfl⟩
  refine ⟨?_, ?_, ?_, ?_⟩
  · intro x hx
    exact (sort_perm hs).subset ((List.take_sublist _ _).subset hx)
  · rw [List.length_take]
    exact min_le_left _ _
  · intro result name
    cases result with
    | none => exact Nat.zero_le _
    | some entries =>
      show ((entries.take 3).filterMap _).length ≤ 3
      refine le_trans (List.length_filterMap_le _ _) ?_
      rw [List.length_take]
      exact min_le_left _ _
  · cases hr : env.nvdResponse with
    | none => exact Nat.zero_le _
    | some pr =>
      obtain ⟨status, body⟩ := pr
      show (_fetch_nvd_cve_recent (some (status, body)) limit).length ≤ limit
      rw [_fetch_nvd_cve_recent]
      by_cases hst : status = 200
      · rw [if_pos hst]
        cases hv : body.vulnerabilities with
        | none => exact Nat.zero_le _
        | some vs =>
          show ((vs.take limit).map _nvd_item).length ≤ limit
          rw [List.length_map, List.length_take]
          exact min_le_left _ _
      · rw [if_neg hst]
        exact Nat.zero_le _

/-- Witness for C6: the counting environment, at limit 20. -/
theorem cves_only_sources_amended_witness :
    c6Out.length ≤ 20 ∧
    (_fetch_rss_feed (some c6Entries) "nvd-rss-analyzed.xml" true 3).length ≤ 3 ∧
    (_fetch_nvd_cve_recent c6Env.nvdResponse 20).length ≤ 20 :=
  have h := cves_only_sources_amended c6Env 20 c6Out (by decide)
  ⟨h.2.1, h.2.2.1 (some c6Entries) "nvd-rss-analyzed.xml", h.2.2.2⟩

/-- C7 (confirmed): when the first attempt raises an error that the except
chain classifies as authentication (not overload, text contains 401/403) or
as rate limit (not overload, not auth, text contains 429 or rate limit),
`analyze_news_for_ideas` returns the corresponding descriptive string after
exactly that one attempt, with no retry and no sleep. -/
theorem analyze_auth_rate_immediate {α : Type} (items : List NewsItem)
    (t : Nat → Outcome α) (mr : Nat) (e : String)
    (ht : t 0 = .raise e) (hov : isOverload e = false)
    (har : isAuth e = true ∨ isRate e = true) :
    analyze_news_for_ideas true items t mr =
      ⟨.msg (if isAuth e then authMsg else rateMsg), 1, []⟩ := by
  show runLoop t mr (mr + 1) 0 [] = _
  by_cases hau : isAuth e = true
  · rw [if_pos hau]
    simpa using runLoop_auth_stop t mr mr 0 [] ht hov hau
  · have hra : isRate e = true := har.resolve_left hau
    rw [if_neg hau]
    simpa using runLoop_rate_stop t mr mr 0 []
      ht hov (Bool.not_eq_true _ ▸ hau) hra

/-- Witness for C7: a transport raising a 401 error. -/
theorem analyze_auth_rate_immediate_witness :
    analyze_news_for_ideas (α := Unit) true [] (fun _ => .raise "401") 2 =
      ⟨.msg (if isAuth "401" then authMsg else rateMsg), 1, []⟩ :=
  analyze_auth_rate_immediate [] (fun _ => .raise "401") 2 "401" rfl
    (by decide) (Or.inl (by decide))

/-- C8 (confirmed): with no AI credential configured,
`analyze_news_for_ideas` returns the configuration-error string at once —
zero attempts invoke the transport (no client construction, no network
call, no sleep), for every news-item list, transport and retry bound. -/
theorem analyze_no_credential {α : Type} (items : List NewsItem)
    (t : Nat → Outcome α) (mr : Nat) :
    analyze_news_for_ideas false items t mr = ⟨.msg configMsg, 0, []⟩ := rfl

/-- C9 (confirmed): both aggregation entry points truncate: any list they
return has length at most the requested limit, whatever the sources
returned. -/
theorem results_length_le_limit :
    (∀ (env : FetchEnv) (limit : Nat) (ic : Bool) (out : List NewsItem),
      get_latest_news env limit ic = some out → out.length ≤ limit) ∧
    (∀ (env : FetchEnv) (limit : Nat) (out : List NewsItem),
      get_cves_only env limit = some out → out.length ≤ limit) := by
  constructor
  · intro env limit ic out h
    rw [get_latest_news] at h
    rcases Option.map_eq_some'.1 h with ⟨r, _, rfl⟩
    rw [List.length_take]
    exact min_le_left _ _
  · intro env limit out h
    rw [get_cves_only] at h
    rcases Option.map_eq_some'.1 h with ⟨r, _, rfl⟩
    rw [List.length_take]
    exact min_le_left _ _

/-- Witness for C9: the empty environment returns the empty list under both
entry points. -/
theorem results_length_le_limit_witness :
    ([] : List NewsItem).length ≤ 5 ∧ ([] : List NewsItem).length ≤ 7 :=
  ⟨results_length_le_limit.1 {} 5 true [] (by decide),
    results_length_le_limit.2 {} 7 [] (by decide)⟩

/-- C10 (confirmed): the except chain tests the overload signals first, so
an error whose text carries both an overload signal and an authentication
or rate-limit signal is classified transient: with retries remaining the
call sleeps 2 seconds and runs a second attempt instead of returning the
auth-failure or rate-limit string after the first. -/
theorem overload_checked_first {α : Type} (items : List NewsItem)
    (t : Nat → Outcome α) (mr : Nat) (e : String)
    (ht : t 0 = .raise e) (hov : isOverload e = true)
    (hsig : isAuth e = true ∨ isRate e = true) (hmr : 0 < mr) :
    classify e = ErrClass.overload ∧
    (analyze_news_for_ideas true items t mr).sleeps.head? = some 2 ∧
    2 ≤ (analyze_news_for_ideas true items t mr).attempts := by
  have hcl : classify e = ErrClass.overload := by
    rw [classify, if_pos hov]
  have hrun : analyze_news_for_ideas true items t mr = runLoop t mr mr 1 [2] := by
    show runLoop t mr (mr + 1) 0 [] = _
    simpa using runLoop_overload_retry t mr mr 0 [] ht hov hmr
  refine ⟨hcl, ?_, ?_⟩
  · rw [hrun]
    rcases runLoop_sleeps_extend t mr mr 1 [2] with ⟨s2, hs2⟩
    rw [hs2]
    rfl
  · rw [hrun]
    exact runLoop_attempts_succ_ge t mr mr 1 [2] hmr

/-- Witness for C10: an error mentioning both 503 and 401, one retry
allowed. -/
theorem overload_checked_first_witness :
    classify "503 401" = ErrClass.overload ∧
    (analyze_news_for_ideas (α := Unit) true [] (fun _ => .raise "503 401") 1).sleeps.head? =
      some 2 ∧
    2 ≤ (analyze_news_for_ideas (α := Unit) true [] (fun _ => .raise "503 401") 1).attempts :=
  overload_checked_first [] (fun _ => .raise "503 401") 1 "503 401" rfl
    (by decide) (Or.inl (by decide)) (by decide)

end ThreatLens
